import Mathlib

/-!
Verification of `src/sdc11073/mdib/providerwaveform.py`.

The Python module is shallowly embedded over exact rationals: every
`float`-valued quantity of the source (timestamps, sample periods, sample
values) becomes a `ℚ`, so the arithmetic of the source is modelled exactly.
Python's `int(x)` (truncation toward zero) and `x % 1` (remainder with the
sign of the divisor) are modelled by `pyTrunc` and `pyMod1`.  Fallible code
paths (Python exceptions) are modelled with `Option`.  Mutable objects are
modelled by explicit state passing.
-/

/-- Python `int(x)` for a real-valued `x`: truncation toward zero. -/
def pyTrunc (x : ℚ) : ℤ := if 0 ≤ x then ⌊x⌋ else -⌊-x⌋

/-- Python `x % 1` for a real-valued `x`: the result has the sign of the
divisor, so it equals `x - ⌊x⌋` and lies in `[0, 1)`. -/
def pyMod1 (x : ℚ) : ℚ := x - ⌊x⌋

/-- Python `a or b` for an optional float `a`: `None` and `0.0` are falsy. -/
def pyOrFloat (a : Option ℚ) (b : ℚ) : ℚ :=
  match a with
  | none => b
  | some x => if x = 0 then b else x

/-- Update of a total map at one key, modelling mutation of one record of a
keyed collection. -/
def updFn (f : String → α) (k : String) (v : α) : String → α :=
  fun x => if x = k then v else f x

/-- Python `dict` assignment `d[k] = v` on an insertion-ordered association
list: an existing binding of `k` is overwritten in place, a new key is
appended at the end. -/
def dictSet (d : List (String × α)) (k : String) (v : α) : List (String × α) :=
  if d.any (fun p => p.1 = k) then
    d.map (fun p => if p.1 = k then (k, v) else p)
  else
    d ++ [(k, v)]

/-- The `pm_types.ComponentActivation` enumeration. -/
inductive ComponentActivation where
  | on
  | notRdy
  | standBy
  | off
  | shtdn
  | fail
deriving DecidableEq, Repr

/-- Annotation payloads (`pm_types.Annotation`) are opaque to this module;
they are modelled as natural-number tokens. -/
abbrev AnnotPayload := ℕ

/-- A `pm_types.ApplyAnnotation(annotation_index, sample_index)` pair.  The
sample index is an `ℤ` because it is produced by Python `int()`. -/
abbrev ApplyAnnot := ℕ × ℤ

/-- The `RtSampleArray` class: a list of waveform values plus time stamps
and annotations. -/
structure RtSampleArray where
  determination_time : Option ℚ
  sample_period : ℚ
  samples : List ℚ
  activation_state : ComponentActivation
  annotations : List AnnotPayload
  apply_annotations : List ApplyAnnot
deriving DecidableEq, Repr

namespace RtSampleArray

/-- Embeds `RtSampleArray.__init__`: `annotations` and `apply_annotations` start
empty. -/
def init (determination_time : Option ℚ) (sample_period : ℚ)
    (samples : List ℚ) (activation_state : ComponentActivation) : RtSampleArray :=
  { determination_time := determination_time
    sample_period := sample_period
    samples := samples
    activation_state := activation_state
    annotations := []
    apply_annotations := [] }

/-- Embeds `RtSampleArray._nearest_index`.  Returns `none` when deactivated or when
the timestamp is outside the array's range plus a half-period tolerance;
otherwise returns `int(pos) + 1` if `pos % 1 >= 0.5` else `int(pos)` where
`pos = (timestamp - determination_time) / sample_period`. -/
def nearest_index (a : RtSampleArray) (timestamp : ℚ) : Option ℤ :=
  match a.determination_time with
  | none => none
  | some dt =>
    if timestamp < dt - a.sample_period * (1/2) then none
    else if dt + (a.samples.length : ℚ) * a.sample_period + a.sample_period * (1/2) ≤ timestamp then
      none
    else
      let pos := (timestamp - dt) / a.sample_period
      if (1/2 : ℚ) ≤ pyMod1 pos then some (pyTrunc pos + 1) else some (pyTrunc pos)

/-- Loop body of `RtSampleArray.add_annotations_at`: the accumulator holds
the growing `apply_annotations` list and the `applied` flag. -/
def annotStep (a : RtSampleArray) (ai : ℕ) (acc : List ApplyAnnot × Bool) (ts : ℚ) :
    List ApplyAnnot × Bool :=
  match a.nearest_index ts with
  | some i => (acc.1 ++ [(ai, i)], true)
  | none => acc

/-- Embeds `RtSampleArray.add_annotations_at`: resolve each timestamp with
`_nearest_index`, append one `ApplyAnnotation` per resolved timestamp, and
append the payload to `annotations` only if at least one resolved. -/
def add_annotations_at (a : RtSampleArray) (annot : AnnotPayload) (timestamps : List ℚ) :
    RtSampleArray :=
  let annot_index := a.annotations.length
  let r := timestamps.foldl (annotStep a annot_index) (a.apply_annotations, false)
  if r.2 then
    { a with apply_annotations := r.1, annotations := a.annotations ++ [annot] }
  else
    { a with apply_annotations := r.1 }

end RtSampleArray

/-- A concrete batch: `determination_time = 0`, `sample_period = 1`, three
samples.  Used to evaluate the nearest-index arithmetic of the source. -/
def batch3 : RtSampleArray :=
  { determination_time := some 0, sample_period := 1, samples := [1, 1, 1],
    activation_state := ComponentActivation.on, annotations := [], apply_annotations := [] }

/-- The `Annotator` class: triggers an annotation when the value changes
from `<= 0` to `> 0`.  The source field `annotation` is modelled as
`annotation_payload`. -/
structure Annotator where
  annotation_payload : AnnotPayload
  trigger_handle : String
  annotated_handles : List String
  last_value : ℚ
deriving DecidableEq, Repr

namespace Annotator

/-- Embeds `Annotator.__init__`: `_last_value` starts at `0.0`. -/
def init (p : AnnotPayload) (trigger : String) (annotated : List String) : Annotator :=
  { annotation_payload := p, trigger_handle := trigger,
    annotated_handles := annotated, last_value := 0 }

/-- Loop of `Annotator.get_annotation_timestamps` over the enumerated
samples, threading `_last_value`.  When a trigger fires while
`determination_time` is `None`, the source raises a `TypeError`
(`None + i * sample_period`); that path is modelled as `none`. -/
def triggerLoop (dt : Option ℚ) (sp : ℚ) (i : ℕ) (last : ℚ) :
    List ℚ → Option (List ℚ × ℚ)
  | [] => some ([], last)
  | s :: rest =>
    if last ≤ 0 ∧ 0 < s then
      match dt with
      | none => none
      | some d =>
        (triggerLoop dt sp (i + 1) s rest).map (fun p => ((d + (i : ℚ) * sp) :: p.1, p.2))
    else triggerLoop dt sp (i + 1) s rest

/-- Embeds `Annotator.get_annotation_timestamps`: returns the emitted timestamps
and the annotator with its persisted `_last_value` updated. -/
def get_annotation_timestamps (an : Annotator) (arr : RtSampleArray) :
    Option (List ℚ × Annotator) :=
  (triggerLoop arr.determination_time arr.sample_period 0 an.last_value arr.samples).map
    (fun p => (p.1, { an with last_value := p.2 }))

end Annotator

/-- Rising-edge trigger times as the specification words them: for each
sample in order, a trigger timestamp `determination_time + index *
sample_period` is emitted exactly when the previously seen value is `≤ 0`
and the current sample is `> 0`. -/
def risingEdgeTimestamps (dt sp : ℚ) (i : ℕ) (last : ℚ) : List ℚ → List ℚ
  | [] => []
  | s :: rest =>
    (if last ≤ 0 ∧ 0 < s then [dt + (i : ℚ) * sp] else []) ++
      risingEdgeTimestamps dt sp (i + 1) s rest

/-- Concrete batch used to instantiate the C5 theorem. -/
def batchC5 : RtSampleArray :=
  RtSampleArray.init (some 0) 1 [-1, 2, 1, -3] ComponentActivation.on

/-- The `_SampleArrayGenerator` class, wrapping a waveform generator.  The
external `WaveformGeneratorBase` collaborator is flattened into the
wrapper: `gen_sample_period` is its fixed `sampleperiod`, and its stateful
`next_samples(count)` is modelled as reading `count` values of the stream
`gen_values` starting at the cursor `gen_pos` (a fresh generator starts at
cursor `0`). -/
structure SampleArrayGenerator where
  descriptor_handle : String
  last_timestamp : Option ℚ
  activation_state : ComponentActivation
  gen_sample_period : ℚ
  gen_values : ℕ → ℚ
  gen_pos : ℕ
  current_rt_sample_array : Option RtSampleArray

namespace SampleArrayGenerator

/-- Embeds `_SampleArrayGenerator.__init__`: `_last_timestamp` starts as `None`,
the activation state starts as `ON`, and no current sample array exists. -/
def init (handle : String) (sp : ℚ) (vals : ℕ → ℚ) : SampleArrayGenerator :=
  { descriptor_handle := handle, last_timestamp := none,
    activation_state := ComponentActivation.on, gen_sample_period := sp,
    gen_values := vals, gen_pos := 0, current_rt_sample_array := none }

/-- Embeds `_SampleArrayGenerator.is_active`. -/
def is_active (g : SampleArrayGenerator) : Bool :=
  g.activation_state = ComponentActivation.on

/-- Embeds `_SampleArrayGenerator.set_activation_state`: stores the state and, when
switching to `ON`, resets `_last_timestamp` to the current wall-clock time
(`time.time()`, passed in as `now`). -/
def set_activation_state (g : SampleArrayGenerator) (s : ComponentActivation) (now : ℚ) :
    SampleArrayGenerator :=
  { g with activation_state := s,
           last_timestamp := if s = ComponentActivation.on then some now else g.last_timestamp }

/-- Embeds `_SampleArrayGenerator.set_waveform_generator`: replaces the wrapped
generator without touching `_last_timestamp`; the fresh generator's stream
starts at its own cursor `0`. -/
def set_waveform_generator (g : SampleArrayGenerator) (sp : ℚ) (vals : ℕ → ℚ) :
    SampleArrayGenerator :=
  { g with gen_sample_period := sp, gen_values := vals, gen_pos := 0 }

/-- Embeds `_SampleArrayGenerator.get_next_sample_array`.  When not `ON`, an empty
batch without determination time is produced and the generator is not
consulted.  When `ON`, `observation_time` is `_last_timestamp or now`
(Python `or`: `None` and `0.0` are falsy), `int((now - observation_time) /
sampleperiod)` samples are requested, and `_last_timestamp` advances by
exactly `sampleperiod * samples_count` from `observation_time`, not to
`now`.  The produced batch is stored as the current sample array. -/
def get_next_sample_array (g : SampleArrayGenerator) (now : ℚ) :
    RtSampleArray × SampleArrayGenerator :=
  if g.activation_state ≠ ComponentActivation.on then
    let arr := RtSampleArray.init none g.gen_sample_period [] g.activation_state
    (arr, { g with current_rt_sample_array := some arr })
  else
    let observation_time := pyOrFloat g.last_timestamp now
    let samples_count := pyTrunc ((now - observation_time) / g.gen_sample_period)
    let n := samples_count.toNat
    let samples := (List.range n).map (fun k => g.gen_values (g.gen_pos + k))
    let arr := RtSampleArray.init (some observation_time) g.gen_sample_period samples
      g.activation_state
    (arr, { g with
            last_timestamp := some (observation_time + g.gen_sample_period * samples_count),
            gen_pos := g.gen_pos + n,
            current_rt_sample_array := some arr })

end SampleArrayGenerator

/-- A concrete inactive sampler used to instantiate the C9 theorem. -/
def samplerOff : SampleArrayGenerator :=
  { SampleArrayGenerator.init "h" 2 (fun _ => 1) with
    activation_state := ComponentActivation.off }

/-- A sequence of `get_next_sample_array` calls at the given simulated
`time.time()` values, collecting the produced batches. -/
def runSampler (g : SampleArrayGenerator) : List ℚ → List RtSampleArray × SampleArrayGenerator
  | [] => ([], g)
  | t :: ts =>
    let r1 := g.get_next_sample_array t
    let r2 := runSampler r1.2 ts
    (r1.1 :: r2.1, r2.2)

/-- Cumulative number of samples emitted over a sequence of calls. -/
def emitted (g : SampleArrayGenerator) (ts : List ℚ) : ℕ :=
  ((runSampler g ts).1.map (fun a => a.samples.length)).sum

/-- A concrete active sampler with `_last_timestamp = 1`, used to
instantiate the C3 theorem. -/
def samplerC3 : SampleArrayGenerator :=
  { SampleArrayGenerator.init "w" 1 (fun _ => 2) with last_timestamp := some 1 }

/-- The slice of a `RealTimeSampleArrayMetricState`'s `MetricValue` that
`_update_rt_samples` writes.  The source converts samples to `Decimal` with
a 10-digit context; over exact rationals that conversion is modelled as the
identity.  The source fields `Annotation` and `ApplyAnnotation` are
modelled as `Annots` and `ApplyAnnots`. -/
structure MetricValue where
  Samples : List ℚ
  DeterminationTime : Option ℚ
  Annots : List AnnotPayload
  ApplyAnnots : List ApplyAnnot
deriving DecidableEq, Repr

/-- The writable state record of one channel in the host mdib. -/
structure RtState where
  ActivationState : ComponentActivation
  MetricValue : Option MetricValue
deriving DecidableEq, Repr

/-- The host mdib as consumed through the external transaction contract:
a structural descriptor (its declared sample period) and a writable state
record per channel handle, each fetched and mutated through a transaction
scope.  Both collections are modelled as total maps over handles. -/
structure Mdib where
  descriptorPeriod : String → ℚ
  states : String → RtState

/-- Events recorded against the host mdib, used to express write-ordering
properties: a structural descriptor write, and a value write that records
the descriptor's declared period at the moment of the write next to the
sample period of the batch being written. -/
inductive Event where
  | descriptorWrite (handle : String) (period : ℚ)
  | valueWrite (handle : String) (descrPeriod : ℚ) (batchPeriod : ℚ)
deriving DecidableEq, Repr

/-- Embeds `DefaultWaveformSource._update_rt_samples` writing one batch into a
state record: `mk_metric_value` (if needed) followed by assignment of
samples, determination time, annotations and activation state. -/
def writeRtSamples (st : RtState) (arr : RtSampleArray) : RtState :=
  { st with
      MetricValue := some
        { Samples := arr.samples, DeterminationTime := arr.determination_time,
          Annots := arr.annotations, ApplyAnnots := arr.apply_annotations },
      ActivationState := arr.activation_state }

/-- The `DefaultWaveformSource` class: registered per-channel sample array
generators and registered annotators, both Python dicts modelled as
insertion-ordered association lists. -/
structure DefaultWaveformSource where
  waveform_generators : List (String × SampleArrayGenerator)
  annotators : List (String × Annotator)

namespace DefaultWaveformSource

/-- Embeds `DefaultWaveformSource.__init__`: both dicts start empty. -/
def init : DefaultWaveformSource := ⟨[], []⟩

/-- The body of the per-channel step of `update_all_realtime_samples`: an
active generator produces its next sample array, which is written into the
channel's state record; an inactive channel is skipped entirely. -/
def updateChannel (mdib : Mdib) (handle : String) (g : SampleArrayGenerator) (now : ℚ) :
    SampleArrayGenerator × Mdib × List Event :=
  if g.is_active then
    let r := g.get_next_sample_array now
    (r.2,
     { mdib with states := updFn mdib.states handle (writeRtSamples (mdib.states handle) r.1) },
     [Event.valueWrite handle (mdib.descriptorPeriod handle) r.1.sample_period])
  else (g, mdib, [])

/-- Result of the generation phase of `update_all_realtime_samples`. -/
structure Phase1Out where
  gens : List (String × SampleArrayGenerator)
  mdib : Mdib
  events : List Event

/-- The generation loop of `update_all_realtime_samples` over all
registered generators, in registration order. -/
def updatePhase1 (now : ℚ) : List (String × SampleArrayGenerator) → Mdib → Phase1Out
  | [], mdib => ⟨[], mdib, []⟩
  | (h, g) :: rest, mdib =>
    let c := updateChannel mdib h g now
    let rr := updatePhase1 now rest c.2.1
    ⟨(h, c.1) :: rr.gens, rr.mdib, c.2.2 ++ rr.events⟩

/-- The snapshot `{handle: g.current_rt_sample_array}` taken at the start of
`_add_all_annotations`. -/
def currentSnapshot (gens : List (String × SampleArrayGenerator)) :
    List (String × Option RtSampleArray) :=
  gens.map (fun p => (p.1, p.2.current_rt_sample_array))

/-- The destination loop of `_add_all_annotations`: each destination handle
present in the snapshot gets the annotation attached to its batch.  A
destination bound to no batch makes the source raise an `AttributeError`
on `None`; that aborts the cycle without attaching, modelled as a skip. -/
def attachToDests (p : AnnotPayload) (tss : List ℚ) :
    List String → List (String × Option RtSampleArray) → List (String × Option RtSampleArray)
  | [], snap => snap
  | d :: ds, snap =>
    attachToDests p tss ds
      (match List.lookup d snap with
       | some (some b) => dictSet snap d (some (b.add_annotations_at p tss))
       | _ => snap)

/-- The annotator loop of `_add_all_annotations`: for each registered
annotator whose trigger handle is in the snapshot, compute the trigger
timestamps on the source batch (updating the annotator's persisted state)
and, when non-empty, attach the payload to every destination batch.  A
trigger handle absent from the snapshot is skipped; a trigger handle bound
to no batch (or a trigger firing on a batch without determination time)
raises in the source, aborting the cycle, and is modelled as a skip. -/
def addAllAnnotations :
    List (String × Annotator) → List (String × Option RtSampleArray) →
      List (String × Option RtSampleArray) × List (String × Annotator)
  | [], snap => (snap, [])
  | (src, an) :: rest, snap =>
    match List.lookup src snap with
    | some (some b) =>
      match an.get_annotation_timestamps b with
      | some r =>
        let snap' :=
          if r.1.isEmpty then snap
          else attachToDests an.annotation_payload r.1 an.annotated_handles snap
        let rr := addAllAnnotations rest snap'
        (rr.1, (src, r.2) :: rr.2)
      | none =>
        let rr := addAllAnnotations rest snap
        (rr.1, (src, an) :: rr.2)
    | _ =>
      let rr := addAllAnnotations rest snap
      (rr.1, (src, an) :: rr.2)

/-- Embeds `DefaultWaveformSource.update_all_realtime_samples`: phase 1 generates
and writes batches for all active registered channels, then
`_add_all_annotations` snapshots every channel's current batch and runs the
annotators over the snapshot; annotation attachment mutates the batch
objects held by the generators. -/
def update_all_realtime_samples (ws : DefaultWaveformSource) (mdib : Mdib) (now : ℚ) :
    DefaultWaveformSource × Mdib × List Event :=
  let p1 := updatePhase1 now ws.waveform_generators mdib
  let snap := currentSnapshot p1.gens
  let p2 := addAllAnnotations ws.annotators snap
  let gens := p1.gens.map (fun p =>
    (p.1, { p.2 with
              current_rt_sample_array :=
                (List.lookup p.1 p2.1).getD p.2.current_rt_sample_array }))
  (⟨gens, p2.2⟩, p1.mdib, p1.events)

/-- Embeds `DefaultWaveformSource.register_waveform_generator`: if the registered
descriptor's declared sample period differs from the generator's, the
descriptor is updated through a transaction first; then the generator is
stored, replacing the wrapped generator of an existing sampler for the
same handle.  The descriptor lookup itself is part of the external mdib
contract and is modelled as a total map. -/
def register_waveform_generator (ws : DefaultWaveformSource) (mdib : Mdib)
    (handle : String) (sp : ℚ) (vals : ℕ → ℚ) :
    DefaultWaveformSource × Mdib × List Event :=
  let dm :=
    if mdib.descriptorPeriod handle ≠ sp then
      ({ mdib with descriptorPeriod := updFn mdib.descriptorPeriod handle sp },
       [Event.descriptorWrite handle sp])
    else (mdib, ([] : List Event))
  let gens :=
    if ws.waveform_generators.any (fun p => p.1 = handle) then
      ws.waveform_generators.map (fun p =>
        if p.1 = handle then (p.1, p.2.set_waveform_generator sp vals) else p)
    else
      ws.waveform_generators ++ [(handle, SampleArrayGenerator.init handle sp vals)]
  ({ ws with waveform_generators := gens }, dm.1, dm.2)

/-- Embeds `DefaultWaveformSource.set_activation_state`: updates the sampler's
activation state (resetting its pacing clock when switching to `ON`),
writes the new activation state into the channel's state record and, when
the generator is no longer active, clears the published `MetricValue`.  An
unregistered handle raises a `KeyError` before any mutation; that is
modelled as a no-op. -/
def set_activation_state (ws : DefaultWaveformSource) (mdib : Mdib)
    (handle : String) (s : ComponentActivation) (now : ℚ) :
    DefaultWaveformSource × Mdib :=
  match List.lookup handle ws.waveform_generators with
  | none => (ws, mdib)
  | some _ =>
    let gens := ws.waveform_generators.map (fun p =>
      if p.1 = handle then (p.1, p.2.set_activation_state s now) else p)
    let st := mdib.states handle
    let st' :=
      { st with
          ActivationState := s,
          MetricValue := if s = ComponentActivation.on then st.MetricValue else none }
    ({ ws with waveform_generators := gens },
     { mdib with states := updFn mdib.states handle st' })

/-- Embeds `DefaultWaveformSource.register_annotation_generator`: a Python dict
assignment keyed by the annotator's trigger handle. -/
def register_annotation_generator (ws : DefaultWaveformSource) (an : Annotator) :
    DefaultWaveformSource :=
  { ws with annotators := dictSet ws.annotators an.trigger_handle an }

end DefaultWaveformSource

/-- The externally drivable operations of the waveform source. -/
inductive Op where
  | registerGen (handle : String) (sp : ℚ) (vals : ℕ → ℚ)
  | updateAll (now : ℚ)
  | setAct (handle : String) (s : ComponentActivation) (now : ℚ)
  | registerAnnot (an : Annotator)

/-- A waveform source together with its host mdib and the accumulated
write-event log. -/
structure SysState where
  ws : DefaultWaveformSource
  mdib : Mdib
  events : List Event

/-- One externally driven operation. -/
def applyOp (st : SysState) : Op → SysState
  | Op.registerGen h sp vals =>
    let r := DefaultWaveformSource.register_waveform_generator st.ws st.mdib h sp vals
    ⟨r.1, r.2.1, st.events ++ r.2.2⟩
  | Op.updateAll now =>
    let r := DefaultWaveformSource.update_all_realtime_samples st.ws st.mdib now
    ⟨r.1, r.2.1, st.events ++ r.2.2⟩
  | Op.setAct h s now =>
    let r := DefaultWaveformSource.set_activation_state st.ws st.mdib h s now
    ⟨r.1, r.2, st.events⟩
  | Op.registerAnnot an =>
    ⟨DefaultWaveformSource.register_annotation_generator st.ws an, st.mdib, st.events⟩

/-- A whole externally driven run. -/
def runOps : SysState → List Op → SysState
  | st, [] => st
  | st, op :: ops => runOps (applyOp st op) ops

/-- The initial system state: no generators, no annotators, no events, an
arbitrary host mdib. -/
def initState (mdib : Mdib) : SysState := ⟨DefaultWaveformSource.init, mdib, []⟩

/-- A concrete source with one registered channel and a published metric
value, used to instantiate the C8 theorem. -/
def wsC8 : DefaultWaveformSource :=
  ⟨[("h", SampleArrayGenerator.init "h" 1 (fun _ => 0))], []⟩

/-- A concrete host mdib whose channel `"h"` has a published value. -/
def mdibC8 : Mdib :=
  ⟨fun _ => 1, fun _ => ⟨ComponentActivation.on, some ⟨[5], some 1, [], []⟩⟩⟩

/-- A host mdib used in the concrete C4 scenarios. -/
def mdibC4 : Mdib := ⟨fun _ => 1, fun _ => ⟨ComponentActivation.off, none⟩⟩

/-- The freshly registered sampler for channel `"a"` in the C4 scenario. -/
def gC4a : SampleArrayGenerator :=
  ⟨"a", none, ComponentActivation.on, 1, fun _ => 1, 0, none⟩

/-- The empty batch generated at time 5 (first cycle, zero samples). -/
def bC4b : RtSampleArray := ⟨some 5, 1, [], ComponentActivation.on, [], []⟩

/-- The sampler after the cycle at time 5. -/
def gC4b : SampleArrayGenerator :=
  ⟨"a", some 5, ComponentActivation.on, 1, fun _ => 1, 0, some bC4b⟩

/-- The two-sample batch generated at time 7 with determination time 5. -/
def bC4c : RtSampleArray := ⟨some 5, 1, [1, 1], ComponentActivation.on, [], []⟩

/-- The sampler after the cycle at time 7. -/
def gC4c : SampleArrayGenerator :=
  ⟨"a", some 7, ComponentActivation.on, 1, fun _ => 1, 2, some bC4c⟩

/-- The sampler after deactivation at time 8: the stale batch from time 7
is still its current sample array. -/
def gC4d : SampleArrayGenerator :=
  ⟨"a", some 7, ComponentActivation.off, 1, fun _ => 1, 2, some bC4c⟩

/-- C4 scenario, stage 1: register channel `"a"` with period 1. -/
def sC4a : SysState := applyOp (initState mdibC4) (Op.registerGen "a" 1 (fun _ => 1))

/-- C4 scenario, stage 2: update cycle at time 5. -/
def sC4b : SysState := applyOp sC4a (Op.updateAll 5)

/-- C4 scenario, stage 3: update cycle at time 7. -/
def sC4c : SysState := applyOp sC4b (Op.updateAll 7)

/-- C4 scenario: register `"a"`, update at 5 and 7, then deactivate at 8. -/
def stC4 : SysState :=
  runOps (initState mdibC4)
    [Op.registerGen "a" 1 (fun _ => 1), Op.updateAll 5, Op.updateAll 7,
     Op.setAct "a" ComponentActivation.off 8]

/-- The period-sync invariant: every registered generator's sample period
matches the declared sample period of its channel's descriptor.
`register_waveform_generator` establishes it before any update cycle can
write values. -/
def periodsSynced (st : SysState) : Prop :=
  ∀ p ∈ st.ws.waveform_generators, st.mdib.descriptorPeriod p.1 = p.2.gen_sample_period

/-- Every value write recorded in the log happened with the descriptor's
declared period already equal to the written batch's period. -/
def eventsOk (evs : List Event) : Prop :=
  ∀ (h : String) (pd pb : ℚ), Event.valueWrite h pd pb ∈ evs → pd = pb

/-- The sampler registered for channel `"a"` with period 2 in the C7
witness scenario. -/
def gC7 : SampleArrayGenerator :=
  ⟨"a", none, ComponentActivation.on, 2, fun _ => 0, 0, none⟩

section BatchLemmas

open RtSampleArray

/-- Folding the `add_annotations_at` loop body appends exactly one reference
per timestamp that `_nearest_index` resolves, and the `applied` flag records
whether any timestamp resolved. -/
theorem annotStep_foldl (a : RtSampleArray) (ai : ℕ) :
    ∀ (tss : List ℚ) (acc : List ApplyAnnot) (b : Bool),
      tss.foldl (annotStep a ai) (acc, b) =
        (acc ++ (tss.filterMap a.nearest_index).map (fun i => (ai, i)),
         b || !(tss.filterMap a.nearest_index).isEmpty) := by
  intro tss
  induction tss with
  | nil => intro acc b; simp
  | cons t ts ih =>
    intro acc b
    simp only [List.foldl_cons, List.filterMap_cons]
    cases h : a.nearest_index t with
    | none => simp [annotStep, h, ih]
    | some i => simp [annotStep, h, ih]

/-- Characterisation of `add_annotations_at`: the call either leaves the
batch unchanged (no timestamp resolved) or appends the payload once and one
reference per resolved timestamp. -/
theorem add_annotations_at_eq (a : RtSampleArray) (p : AnnotPayload) (tss : List ℚ) :
    a.add_annotations_at p tss =
      if (tss.filterMap a.nearest_index).isEmpty then a
      else
        { a with
          annotations := a.annotations ++ [p],
          apply_annotations := a.apply_annotations ++
            (tss.filterMap a.nearest_index).map (fun i => (a.annotations.length, i)) } := by
  simp only [add_annotations_at, annotStep_foldl]
  cases h : (tss.filterMap a.nearest_index).isEmpty with
  | true =>
    have h0 : tss.filterMap a.nearest_index = [] := by simpa using h
    simp [h, h0]
  | false => simp [h]

/-- CLAIM C6 — For every batch and `add_annotations_at` call with a payload
and a list of timestamps: if at least one timestamp resolves to a valid
index, the payload is appended exactly once to `annotations` and one
`(annotation_index, index)` pair is appended to `apply_annotations` per
resolved timestamp, with `annotation_index` the position at which the
payload lands; if no timestamp resolves, the call leaves both
`annotations` and `apply_annotations` unchanged (no orphaned payload). -/
theorem C6_no_orphaned_annotation_payload (a : RtSampleArray) (p : AnnotPayload)
    (tss : List ℚ) :
    a.add_annotations_at p tss =
      if (tss.filterMap a.nearest_index).isEmpty then a
      else
        { a with
          annotations := a.annotations ++ [p],
          apply_annotations := a.apply_annotations ++
            (tss.filterMap a.nearest_index).map (fun i => (a.annotations.length, i)) } :=
  add_annotations_at_eq a p tss

end BatchLemmas

/-- CLAIM C2 — divergence of `_nearest_index` from the specified rounding.
With `determination_time = 0` and `sample_period = 1` the code returns
`0` at `0.49`, `1` at `0.5` and `none` at `-0.51` as the spec says, but at
`-0.49` it returns `1` where the spec's floor-based round-half-up (and its
stated test value) requires `0`: Python `int()` truncates toward zero, so
for positions in `[-0.5, 0)` the code computes `int(pos) + 1 = 1` instead
of `⌊pos⌋ + 1 = 0`. -/
theorem C2_nearest_index_truncates_at_negative_pos :
    batch3.nearest_index (49/100) = some 0 ∧
    batch3.nearest_index (1/2) = some 1 ∧
    batch3.nearest_index (-51/100) = none ∧
    batch3.nearest_index (-49/100) = some 1 ∧
    batch3.nearest_index (-49/100) ≠ some 0 := by
  refine ⟨?_, ?_, ?_, ?_, ?_⟩ <;>
    norm_num [RtSampleArray.nearest_index, batch3, pyMod1, pyTrunc]

/-- CLAIM C1 — violation of the annotation-reference invariant.  On a batch
of three samples starting at time `0` with period `1`, attaching an
annotation at timestamp `3.2` (inside the half-period tolerance window, as
`3.2 < 3.5`) appends the reference `(0, 3)` to `apply_annotations`, whose
sample index `3` is not a valid index into the three samples. -/
theorem C1_sample_index_out_of_range :
    (batch3.add_annotations_at 7 [16/5]).apply_annotations = [(0, 3)] ∧
    (batch3.add_annotations_at 7 [16/5]).annotations = [7] ∧
    (batch3.add_annotations_at 7 [16/5]).samples.length = 3 := by
  refine ⟨?_, ?_, ?_⟩ <;>
    norm_num [RtSampleArray.add_annotations_at, RtSampleArray.annotStep,
      RtSampleArray.nearest_index, pyMod1, pyTrunc, batch3]

/-- With a determination time present, the trigger loop cannot fail, emits
exactly the rising-edge timestamps, and finishes with `_last_value` equal
to the last sample (or the incoming value for an empty batch). -/
theorem triggerLoop_eq (d sp : ℚ) :
    ∀ (ss : List ℚ) (i : ℕ) (last : ℚ),
      Annotator.triggerLoop (some d) sp i last ss =
        some (risingEdgeTimestamps d sp i last ss, ss.getLastD last) := by
  intro ss
  induction ss with
  | nil => intro i last; rfl
  | cons s rest ih =>
    intro i last
    by_cases h : last ≤ 0 ∧ 0 < s <;>
      simp [Annotator.triggerLoop, risingEdgeTimestamps, h, ih, List.getLastD_cons,
        -List.getLastD_eq_getLast?]

/-- CLAIM C5 — For every `Annotator` and every batch with a determination
time, `get_annotation_timestamps` walks the samples in order starting from
the persisted `_last_value` (initially `0`), emits
`determination_time + index * sample_period` exactly when the last value is
`≤ 0` and the current sample is `> 0`, unconditionally updates the last
value with each sample, and hence ends with `_last_value` equal to the last
sample of a non-empty batch; the updated annotator persists this state. -/
theorem C5_annotator_rising_edge (an : Annotator) (arr : RtSampleArray) (d : ℚ)
    (h : arr.determination_time = some d) :
    an.get_annotation_timestamps arr =
      some (risingEdgeTimestamps d arr.sample_period 0 an.last_value arr.samples,
            { an with last_value := arr.samples.getLastD an.last_value }) ∧
    ∀ (p : AnnotPayload) (t : String) (hs : List String),
      (Annotator.init p t hs).last_value = 0 := by
  refine ⟨?_, fun p t hs => rfl⟩
  simp [Annotator.get_annotation_timestamps, h, triggerLoop_eq]

/-- Witness for C5: the rising-edge annotator applied to a concrete batch
emits exactly the timestamp of the single `≤ 0 → > 0` crossing and retains
the final sample as its state. -/
theorem C5_annotator_rising_edge_witness :
    batchC5.determination_time = some 0 ∧
    (Annotator.init 5 "t" ["a"]).get_annotation_timestamps batchC5 =
      some (risingEdgeTimestamps 0 batchC5.sample_period 0
              (Annotator.init 5 "t" ["a"]).last_value batchC5.samples,
            { Annotator.init 5 "t" ["a"] with
              last_value := batchC5.samples.getLastD (Annotator.init 5 "t" ["a"]).last_value }) :=
  ⟨rfl, (C5_annotator_rising_edge (Annotator.init 5 "t" ["a"]) batchC5 0 rfl).1⟩

/-- Both branches of `get_next_sample_array` store the produced batch as the
generator's current sample array. -/
theorem get_next_current (g : SampleArrayGenerator) (now : ℚ) :
    (g.get_next_sample_array now).2.current_rt_sample_array =
      some (g.get_next_sample_array now).1 := by
  unfold SampleArrayGenerator.get_next_sample_array
  by_cases h : g.activation_state = ComponentActivation.on <;> simp [h]

/-- CLAIM C9 — For every sampler whose activation state is not `ON`,
`get_next_sample_array` returns a batch with no determination time, empty
samples, and the sampler's current sample period and activation state; the
generator stream is not consulted (its cursor and the whole sampler state
except the stored current batch are unchanged), and this path is total
(never fails). -/
theorem C9_inactive_empty_batch (g : SampleArrayGenerator) (now : ℚ)
    (h : g.activation_state ≠ ComponentActivation.on) :
    g.get_next_sample_array now =
      (RtSampleArray.init none g.gen_sample_period [] g.activation_state,
       { g with
           current_rt_sample_array :=
             some (RtSampleArray.init none g.gen_sample_period [] g.activation_state) }) := by
  simp [SampleArrayGenerator.get_next_sample_array, h]

/-- Witness for C9: the inactive concrete sampler yields the empty
timestamp-less batch and keeps its state. -/
theorem C9_inactive_empty_batch_witness :
    samplerOff.activation_state ≠ ComponentActivation.on ∧
    samplerOff.get_next_sample_array 3 =
      (RtSampleArray.init none samplerOff.gen_sample_period [] samplerOff.activation_state,
       { samplerOff with
           current_rt_sample_array :=
             some (RtSampleArray.init none samplerOff.gen_sample_period []
               samplerOff.activation_state) }) :=
  ⟨by simp [samplerOff, SampleArrayGenerator.init], C9_inactive_empty_batch samplerOff 3
    (by simp [samplerOff, SampleArrayGenerator.init])⟩

theorem pyTrunc_eq_floor (x : ℚ) (h : 0 ≤ x) : pyTrunc x = ⌊x⌋ := if_pos h

/-- Characterisation of one active `get_next_sample_array` call with a set,
non-zero `_last_timestamp`. -/
theorem get_next_on (g : SampleArrayGenerator) (now L : ℚ)
    (hON : g.activation_state = ComponentActivation.on)
    (hlast : g.last_timestamp = some L) (hL0 : L ≠ 0) :
    g.get_next_sample_array now =
      (RtSampleArray.init (some L) g.gen_sample_period
        ((List.range (pyTrunc ((now - L) / g.gen_sample_period)).toNat).map
          (fun k => g.gen_values (g.gen_pos + k))) g.activation_state,
       { g with
           last_timestamp :=
             some (L + g.gen_sample_period * (pyTrunc ((now - L) / g.gen_sample_period) : ℚ)),
           gen_pos := g.gen_pos + (pyTrunc ((now - L) / g.gen_sample_period)).toNat,
           current_rt_sample_array :=
             some (RtSampleArray.init (some L) g.gen_sample_period
               ((List.range (pyTrunc ((now - L) / g.gen_sample_period)).toNat).map
                 (fun k => g.gen_values (g.gen_pos + k))) g.activation_state) }) := by
  simp [SampleArrayGenerator.get_next_sample_array, hON, hlast, pyOrFloat, hL0]

/-- Lowering the starting point of a non-decreasing chain. -/
theorem chain_le_of_le (a b : ℚ) (l : List ℚ) (h : a ≤ b)
    (hc : List.Chain (fun x y => x ≤ y) b l) : List.Chain (fun x y => x ≤ y) a l := by
  cases hc with
  | nil => exact List.Chain.nil
  | cons hd tl => exact List.Chain.cons (le_trans h hd) tl

/-- The last element of a non-decreasing chain dominates its start. -/
theorem chain_le_getLastD (b : ℚ) (l : List ℚ)
    (hc : List.Chain (fun x y => x ≤ y) b l) : b ≤ l.getLastD b := by
  induction l generalizing b with
  | nil => simp
  | cons c t ih =>
    cases hc with
    | cons hd tl =>
      calc b ≤ c := hd
        _ ≤ t.getLastD c := ih c tl
        _ = (c :: t).getLastD b := by rw [List.getLastD_cons]

/-- The default value of `getLastD` is irrelevant on a non-empty list. -/
theorem getLastD_default_irrel (a : ℚ) (l : List ℚ) (d e : ℚ) :
    (a :: l).getLastD d = (a :: l).getLastD e := by
  rw [List.getLastD_cons, List.getLastD_cons]

/-- Unfolding `emitted` over one call. -/
theorem emitted_cons (g : SampleArrayGenerator) (t : ℚ) (ts : List ℚ) :
    emitted g (t :: ts) =
      (g.get_next_sample_array t).1.samples.length +
        emitted (g.get_next_sample_array t).2 ts := rfl

/-- Drift-free pacing over a whole run: starting from `_last_timestamp = L > 0`
and polling at non-decreasing times, the cumulative emitted sample count is
exactly the floor of the total elapsed time over the sample period. -/
theorem emitted_total (sp : ℚ) (hsp : 0 < sp) :
    ∀ (ts : List ℚ) (g : SampleArrayGenerator) (L : ℚ),
      g.activation_state = ComponentActivation.on →
      g.gen_sample_period = sp →
      g.last_timestamp = some L →
      0 < L →
      List.Chain (fun x y => x ≤ y) L ts →
      emitted g ts = (⌊(ts.getLastD L - L) / sp⌋).toNat := by
  intro ts
  induction ts with
  | nil =>
    intro g L _ _ _ _ _
    simp [emitted, runSampler]
  | cons t ts ih =>
    intro g L hON hper hlast hL hchain
    cases hchain with
    | cons hLt hch =>
      have hdnn : (0:ℚ) ≤ (t - L) / sp := div_nonneg (by linarith) hsp.le
      have hstep := get_next_on g t L hON hlast (ne_of_gt hL)
      rw [hper] at hstep
      have htr : pyTrunc ((t - L) / sp) = ⌊(t - L) / sp⌋ := pyTrunc_eq_floor _ hdnn
      rw [htr] at hstep
      set k : ℤ := ⌊(t - L) / sp⌋ with hk
      have hknn : (0:ℤ) ≤ k := Int.floor_nonneg.mpr hdnn
      have hL' : (0:ℚ) < L + sp * k := by
        have hnn : (0:ℚ) ≤ sp * k := mul_nonneg hsp.le (by exact_mod_cast hknn)
        linarith
      have hL'le : L + sp * k ≤ t := by
        have h1 : (k : ℚ) ≤ (t - L) / sp := Int.floor_le _
        have h2 : sp * (k : ℚ) ≤ sp * ((t - L) / sp) :=
          mul_le_mul_of_nonneg_left h1 hsp.le
        rw [mul_div_cancel₀ _ (ne_of_gt hsp)] at h2
        linarith
      have hlen : (g.get_next_sample_array t).1.samples.length = k.toNat := by
        rw [hstep]
        simp [RtSampleArray.init]
      have hrec := ih (g.get_next_sample_array t).2 (L + sp * k)
        (by rw [hstep]; exact hON)
        (by rw [hstep])
        (by rw [hstep])
        hL'
        (chain_le_of_le _ t ts hL'le hch)
      rw [emitted_cons, hlen, hrec]
      cases ts with
      | nil =>
        have h0 : (L + sp * (k:ℚ)) - (L + sp * (k:ℚ)) = 0 := by ring
        simp [h0, List.getLastD]
      | cons a tl =>
        have hgl1 : (a :: tl).getLastD (L + sp * k) = tl.getLastD a :=
          List.getLastD_cons _ _ _
        have hgl2 : (t :: a :: tl).getLastD L = tl.getLastD a := by
          rw [List.getLastD_cons, List.getLastD_cons]
        rw [hgl1, hgl2]
        have hshift : (tl.getLastD a - (L + sp * k)) / sp =
            (tl.getLastD a - L) / sp - (k : ℚ) := by
          field_simp
          ring
        rw [hshift, Int.floor_sub_int]
        have htM : t ≤ tl.getLastD a := by
          have h0 := chain_le_getLastD t (a :: tl) hch
          rwa [List.getLastD_cons] at h0
        have hKk : k ≤ ⌊(tl.getLastD a - L) / sp⌋ := by
          rw [hk]
          exact Int.floor_le_floor (div_le_div_of_nonneg_right (by linarith) hsp.le)
        omega

/-- CLAIM C3 — For every sampler that stays `ON`: a call at time `now`
requests exactly `floor((now - observation_time) / sample_period)` samples
from the generator (the stream cursor advances by exactly that count) and
advances `_last_timestamp` to `observation_time + count * sample_period`,
not to `now`; consequently over any non-decreasing sequence of polling
times the cumulative emitted sample count is exactly
`floor(T / sample_period)` for the total elapsed time `T` since the first
observation time, even though individual cycles may emit `0` samples. -/
theorem C3_drift_free_pacing (g : SampleArrayGenerator) (t0 sp : ℚ) (ts : List ℚ)
    (hsp : 0 < sp) (ht0 : 0 < t0)
    (hON : g.activation_state = ComponentActivation.on)
    (hper : g.gen_sample_period = sp)
    (hlast : g.last_timestamp = some t0)
    (hchain : List.Chain (fun x y => x ≤ y) t0 ts) :
    (∀ now, t0 ≤ now →
      (g.get_next_sample_array now).1.samples.length = (⌊(now - t0) / sp⌋).toNat ∧
      (g.get_next_sample_array now).2.last_timestamp =
        some (t0 + sp * (⌊(now - t0) / sp⌋ : ℚ)) ∧
      (g.get_next_sample_array now).2.gen_pos = g.gen_pos + (⌊(now - t0) / sp⌋).toNat) ∧
    emitted g ts = (⌊(ts.getLastD t0 - t0) / sp⌋).toNat := by
  constructor
  · intro now hnow
    have hstep := get_next_on g now t0 hON hlast (ne_of_gt ht0)
    rw [hper] at hstep
    have htr : pyTrunc ((now - t0) / sp) = ⌊(now - t0) / sp⌋ :=
      pyTrunc_eq_floor _ (div_nonneg (by linarith) hsp.le)
    rw [htr] at hstep
    refine ⟨?_, ?_, ?_⟩ <;> (rw [hstep]; try simp [RtSampleArray.init])
  · exact emitted_total sp hsp ts g t0 hON hper hlast ht0 hchain

/-- Witness for C3: polling the concrete sampler at times `2.5`, `2.7` and
`4.2` (per-cycle counts `1`, `0`, `2`) emits `floor(4.2 - 1) = 3` samples in
total. -/
theorem C3_drift_free_pacing_witness :
    List.Chain (fun x y => x ≤ y) 1 [5/2, 27/10, 21/5] ∧
    emitted samplerC3 [5/2, 27/10, 21/5] =
      (⌊(([(5:ℚ)/2, 27/10, 21/5].getLastD 1 - 1) : ℚ) / 1⌋).toNat :=
  ⟨by norm_num [List.chain_cons],
   (C3_drift_free_pacing samplerC3 1 1 [5/2, 27/10, 21/5] (by norm_num) (by norm_num)
      rfl rfl rfl (by norm_num [List.chain_cons])).2⟩

/-- Looking up the overwritten key in the in-place branch of a dict
assignment. -/
theorem lookup_map_overwrite (k : String) (v : α) :
    ∀ d : List (String × α), d.any (fun p => p.1 = k) = true →
      List.lookup k (d.map (fun p => if p.1 = k then (k, v) else p)) = some v := by
  intro d
  induction d with
  | nil => intro h; simp at h
  | cons a t ih =>
    intro h
    simp only [List.map_cons]
    by_cases hk : a.1 = k
    · rw [if_pos hk]
      simp [List.lookup]
    · rw [if_neg hk]
      have hb : (k == a.1) = false := beq_eq_false_iff_ne.mpr (fun he => hk he.symm)
      have h' : t.any (fun p => p.1 = k) = true := by
        simp [List.any_cons, hk] at h
        simpa using h
      simp [List.lookup, hb, ih h']

/-- Looking up the appended key in the fresh-key branch of a dict
assignment. -/
theorem lookup_append_new (k : String) (v : α) :
    ∀ d : List (String × α), d.any (fun p => p.1 = k) = false →
      List.lookup k (d ++ [(k, v)]) = some v := by
  intro d
  induction d with
  | nil => intro _; simp [List.lookup]
  | cons a t ih =>
    intro h
    simp [List.any_cons] at h
    have hb : (k == a.1) = false := beq_eq_false_iff_ne.mpr (fun he => h.1 he.symm)
    simp [List.lookup, hb, ih (by simpa using h.2)]

/-- A dict assignment binds the assigned key to the new value. -/
theorem lookup_dictSet_self (k : String) (v : α) (d : List (String × α)) :
    List.lookup k (dictSet d k v) = some v := by
  unfold dictSet
  cases hany : d.any (fun p => p.1 = k) with
  | true => rw [if_pos rfl]; exact lookup_map_overwrite k v d hany
  | false => rw [if_neg Bool.false_ne_true]; exact lookup_append_new k v d hany

/-- A dict assignment leaves every other key's binding unchanged. -/
theorem lookup_dictSet_other (k k' : String) (v : α) (hne : k' ≠ k)
    (d : List (String × α)) :
    List.lookup k' (dictSet d k v) = List.lookup k' d := by
  unfold dictSet
  cases hany : d.any (fun p => p.1 = k) with
  | true =>
    rw [if_pos rfl]
    clear hany
    induction d with
    | nil => rfl
    | cons a t ih =>
      simp only [List.map_cons]
      by_cases hk : a.1 = k
      · rw [if_pos hk]
        have hb : (k' == k) = false := beq_eq_false_iff_ne.mpr hne
        have hb2 : (k' == a.1) = false := beq_eq_false_iff_ne.mpr (hk ▸ hne)
        simp [List.lookup, hb, hb2, ih]
      · rw [if_neg hk]
        by_cases hk' : k' = a.1
        · simp [List.lookup, hk']
        · have hb : (k' == a.1) = false := beq_eq_false_iff_ne.mpr hk'
          simp [List.lookup, hb, ih]
  | false =>
    rw [if_neg Bool.false_ne_true]
    clear hany
    induction d with
    | nil =>
      have hb : (k' == k) = false := beq_eq_false_iff_ne.mpr hne
      simp [List.lookup, hb]
    | cons a t ih =>
      by_cases hk' : k' = a.1
      · simp [List.lookup, hk']
      · have hb : (k' == a.1) = false := beq_eq_false_iff_ne.mpr hk'
        simp [List.lookup, hb, ih]

/-- A dict assignment preserves the key list in the overwrite branch and
appends the fresh key otherwise. -/
theorem keys_dictSet (k : String) (v : α) :
    ∀ d : List (String × α),
      (dictSet d k v).map Prod.fst =
        if d.any (fun p => p.1 = k) = true then d.map Prod.fst
        else d.map Prod.fst ++ [k] := by
  intro d
  unfold dictSet
  cases hany : d.any (fun p => p.1 = k) with
  | true =>
    rw [if_pos rfl, if_pos rfl]
    clear hany
    induction d with
    | nil => rfl
    | cons a t ih =>
      simp only [List.map_cons, ih]
      by_cases hk : a.1 = k
      · rw [if_pos hk]
        simp [hk]
      · rw [if_neg hk]
  | false =>
    rw [if_neg Bool.false_ne_true, if_neg Bool.false_ne_true]
    simp

/-- A dict assignment keeps the keys duplicate-free. -/
theorem nodup_keys_dictSet (k : String) (v : α) (d : List (String × α))
    (h : (d.map Prod.fst).Nodup) : ((dictSet d k v).map Prod.fst).Nodup := by
  rw [keys_dictSet]
  cases hany : d.any (fun p => p.1 = k) with
  | true => simpa [if_pos rfl] using h
  | false =>
    rw [if_neg Bool.false_ne_true]
    have hnotin : k ∉ d.map Prod.fst := by
      intro hmem
      rcases List.mem_map.mp hmem with ⟨p, hp, hpk⟩
      have := List.any_eq_false.mp hany p hp
      simp [hpk] at this
    simp [List.nodup_append, h, hnotin]

/-- CLAIM C10 — The orchestrator retains at most one annotator per trigger
handle: `register_annotation_generator` keeps the annotator dict's keys
duplicate-free, binds the annotator's trigger handle to the newly
registered annotator (silently replacing any previous one, which thereby
no longer appears in the dict that `_add_all_annotations` iterates in
later cycles), and leaves every other trigger handle's binding unchanged. -/
theorem C10_latest_annotator_per_trigger_handle (ws : DefaultWaveformSource) (an : Annotator)
    (hnd : (ws.annotators.map Prod.fst).Nodup) :
    (((ws.register_annotation_generator an).annotators.map Prod.fst).Nodup) ∧
    List.lookup an.trigger_handle (ws.register_annotation_generator an).annotators = some an ∧
    (∀ k, k ≠ an.trigger_handle →
      List.lookup k (ws.register_annotation_generator an).annotators =
        List.lookup k ws.annotators) := by
  refine ⟨?_, ?_, ?_⟩
  · exact nodup_keys_dictSet an.trigger_handle an ws.annotators hnd
  · exact lookup_dictSet_self an.trigger_handle an ws.annotators
  · intro k hk
    exact lookup_dictSet_other an.trigger_handle k an hk ws.annotators

/-- Witness for C10: registering a second annotator for trigger handle
`"t"` replaces the first. -/
theorem C10_latest_annotator_per_trigger_handle_witness :
    ((DefaultWaveformSource.mk [] [("t", Annotator.init 1 "t" [])]).annotators.map
      Prod.fst).Nodup ∧
    List.lookup ((Annotator.init 2 "t" ["x"]).trigger_handle)
      ((DefaultWaveformSource.mk [] [("t", Annotator.init 1 "t" [])]).register_annotation_generator
        (Annotator.init 2 "t" ["x"])).annotators = some (Annotator.init 2 "t" ["x"]) :=
  ⟨by simp, (C10_latest_annotator_per_trigger_handle
      (DefaultWaveformSource.mk [] [("t", Annotator.init 1 "t" [])])
      (Annotator.init 2 "t" ["x"]) (by simp)).2.1⟩

/-- Looking up the updated key after mutating one keyed record in place. -/
theorem lookup_map_if (k : String) (f : α → α) :
    ∀ (d : List (String × α)) (g : α),
      (d.map Prod.fst).Nodup →
      List.lookup k d = some g →
      List.lookup k (d.map (fun p => if p.1 = k then (p.1, f p.2) else p)) = some (f g) := by
  intro d
  induction d with
  | nil => intro g _ hg; simp [List.lookup] at hg
  | cons a t ih =>
    intro g hnd hg
    simp only [List.map_cons]
    by_cases hk : a.1 = k
    · rw [if_pos hk]
      have hb : (k == a.1) = true := beq_iff_eq.mpr hk.symm
      rw [show a = (a.1, a.2) from rfl] at hg
      simp only [List.lookup, hb] at hg ⊢
      simp only [Option.some.injEq] at hg
      rw [hg]
    · rw [if_neg hk]
      have hb : (k == a.1) = false := beq_eq_false_iff_ne.mpr (fun he => hk he.symm)
      rw [show a = (a.1, a.2) from rfl] at hg
      simp only [List.lookup, hb] at hg ⊢
      exact ih g (by simpa using (List.nodup_cons.mp (by simpa using hnd)).2) hg

/-- Mutating one keyed record in place leaves every other key's binding
unchanged. -/
theorem lookup_map_if_other (k k' : String) (f : α → α) (hne : k' ≠ k) :
    ∀ d : List (String × α),
      List.lookup k' (d.map (fun p => if p.1 = k then (p.1, f p.2) else p)) =
        List.lookup k' d := by
  intro d
  induction d with
  | nil => rfl
  | cons a t ih =>
    simp only [List.map_cons]
    by_cases hk' : k' = a.1
    · have hk : ¬(a.1 = k) := fun he => hne (hk'.trans he)
      rw [if_neg hk]
      simp [List.lookup, hk']
    · have hb : (k' == a.1) = false := beq_eq_false_iff_ne.mpr hk'
      by_cases hk : a.1 = k
      · rw [if_pos hk]
        rw [show a = (a.1, a.2) from rfl]
        simp only [List.lookup, hb]
        exact ih
      · rw [if_neg hk]
        rw [show a = (a.1, a.2) from rfl]
        simp only [List.lookup, hb]
        exact ih

/-- CLAIM C8 — For every registered channel, `set_activation_state`
updates the sampler's activation state to the requested state, resets the
sampler's pacing clock to the current wall-clock time exactly when the new
state is `ON` (leaving `_last_timestamp` untouched when moving away from
`ON`), writes the new state into the host state record, and clears the
published `MetricValue` exactly when the new state is not `ON`. -/
theorem C8_set_activation_state_effects (ws : DefaultWaveformSource) (mdib : Mdib)
    (handle : String) (s : ComponentActivation) (now : ℚ) (g : SampleArrayGenerator)
    (hnd : (ws.waveform_generators.map Prod.fst).Nodup)
    (hg : List.lookup handle ws.waveform_generators = some g) :
    List.lookup handle (ws.set_activation_state mdib handle s now).1.waveform_generators =
      some { g with
               activation_state := s,
               last_timestamp :=
                 if s = ComponentActivation.on then some now else g.last_timestamp } ∧
    ((ws.set_activation_state mdib handle s now).2.states handle).ActivationState = s ∧
    (s ≠ ComponentActivation.on →
      ((ws.set_activation_state mdib handle s now).2.states handle).MetricValue = none) := by
  refine ⟨?_, ?_, ?_⟩
  · simp only [DefaultWaveformSource.set_activation_state, hg]
    exact lookup_map_if handle (fun q => q.set_activation_state s now)
      ws.waveform_generators g hnd hg
  · simp only [DefaultWaveformSource.set_activation_state, hg]
    simp [updFn]
  · intro hs
    simp only [DefaultWaveformSource.set_activation_state, hg]
    simp [updFn, hs]

/-- Witness for C8: deactivating the concrete channel clears its published
metric value, records the new activation state, and keeps the sampler's
pacing clock. -/
theorem C8_set_activation_state_effects_witness :
    ((wsC8.waveform_generators.map Prod.fst).Nodup) ∧
    ((wsC8.set_activation_state mdibC8 "h" ComponentActivation.off 4).2.states
        "h").ActivationState = ComponentActivation.off ∧
    ((wsC8.set_activation_state mdibC8 "h" ComponentActivation.off 4).2.states
        "h").MetricValue = none :=
  ⟨by simp [wsC8],
   (C8_set_activation_state_effects wsC8 mdibC8 "h" ComponentActivation.off 4
      (SampleArrayGenerator.init "h" 1 (fun _ => 0)) (by simp [wsC8])
      (by simp [wsC8, List.lookup])).2.1,
   (C8_set_activation_state_effects wsC8 mdibC8 "h" ComponentActivation.off 4
      (SampleArrayGenerator.init "h" 1 (fun _ => 0)) (by simp [wsC8])
      (by simp [wsC8, List.lookup])).2.2 (by simp)⟩

/-- The snapshot taken by `_add_all_annotations` maps each registered
channel to its sampler's current batch after the generation phase: fresh
for active channels, untouched for inactive ones. -/
theorem snapshot_lookup_eq (now : ℚ) :
    ∀ (entries : List (String × SampleArrayGenerator)) (mdib : Mdib)
      (h : String) (g : SampleArrayGenerator),
      (entries.map Prod.fst).Nodup →
      List.lookup h entries = some g →
      List.lookup h (DefaultWaveformSource.currentSnapshot
          (DefaultWaveformSource.updatePhase1 now entries mdib).gens) =
        some (if g.is_active then some (g.get_next_sample_array now).1
              else g.current_rt_sample_array) := by
  intro entries
  induction entries with
  | nil => intro mdib h g _ hg; simp [List.lookup] at hg
  | cons a t ih =>
    intro mdib h g hnd hg
    obtain ⟨h1, g1⟩ := a
    simp only [DefaultWaveformSource.updatePhase1, DefaultWaveformSource.currentSnapshot,
      List.map_cons]
    by_cases heq : h = h1
    · subst heq
      simp only [List.lookup, beq_self_eq_true] at hg ⊢
      simp only [Option.some.injEq] at hg
      subst hg
      cases hact : g1.is_active with
      | true =>
        simp [DefaultWaveformSource.updateChannel, hact, get_next_current]
      | false =>
        simp [DefaultWaveformSource.updateChannel, hact]
    · have hb : (h == h1) = false := beq_eq_false_iff_ne.mpr heq
      simp only [List.lookup, hb] at hg ⊢
      exact ih _ h g (by simpa using (List.nodup_cons.mp (by simpa using hnd)).2) hg

/-- CLAIM C4 (amended) — In every `update_all_realtime_samples` cycle, the
snapshot taken by `_add_all_annotations` maps each registered channel to
its sampler's current batch: an active channel maps to the batch freshly
generated earlier in the same call (never a stale one), while an inactive
channel keeps whatever batch was current before the cycle (the generation
loop skips inactive samplers, so this may be a stale batch from an
earlier cycle, or no batch at all if none was ever generated). -/
theorem C4_snapshot_per_channel (now : ℚ) :
    ∀ (entries : List (String × SampleArrayGenerator)) (mdib : Mdib)
      (h : String) (g : SampleArrayGenerator),
      (entries.map Prod.fst).Nodup →
      List.lookup h entries = some g →
      List.lookup h (DefaultWaveformSource.currentSnapshot
          (DefaultWaveformSource.updatePhase1 now entries mdib).gens) =
        some (if g.is_active then some (g.get_next_sample_array now).1
              else g.current_rt_sample_array) :=
  snapshot_lookup_eq now

/-- Witness for the amended C4 theorem at a one-channel source with an
active sampler. -/
theorem C4_snapshot_per_channel_witness :
    ((([("w", samplerC3)] : List (String × SampleArrayGenerator)).map Prod.fst).Nodup) ∧
    List.lookup "w" (DefaultWaveformSource.currentSnapshot
        (DefaultWaveformSource.updatePhase1 2 [("w", samplerC3)] mdibC4).gens) =
      some (if samplerC3.is_active then some (samplerC3.get_next_sample_array 2).1
            else samplerC3.current_rt_sample_array) :=
  ⟨by simp,
   C4_snapshot_per_channel 2 [("w", samplerC3)] mdibC4 "w" samplerC3 (by simp)
     (by simp [List.lookup])⟩

/-- One update cycle of a single-channel source with no annotators, with
the host mdib left symbolic: the returned source holds the sampler stepped
by `get_next_sample_array` when active, unchanged when inactive. -/
theorem update_ws_single (g : SampleArrayGenerator) (mdib : Mdib) (now : ℚ) (h : String) :
    (DefaultWaveformSource.update_all_realtime_samples ⟨[(h, g)], []⟩ mdib now).1 =
      ⟨[(h, if g.is_active then (g.get_next_sample_array now).2 else g)], []⟩ := by
  cases hact : g.is_active with
  | true =>
    simp [DefaultWaveformSource.update_all_realtime_samples,
      DefaultWaveformSource.updatePhase1, DefaultWaveformSource.updateChannel,
      DefaultWaveformSource.currentSnapshot, DefaultWaveformSource.addAllAnnotations,
      hact, List.lookup]
  | false =>
    simp [DefaultWaveformSource.update_all_realtime_samples,
      DefaultWaveformSource.updatePhase1, DefaultWaveformSource.updateChannel,
      DefaultWaveformSource.currentSnapshot, DefaultWaveformSource.addAllAnnotations,
      hact, List.lookup]

/-- CLAIM C4 — counterexample.  In the next update cycle (time 9) after the
`stC4` scenario, the cross-annotation snapshot maps the now inactive
channel `"a"` not to an empty-batch placeholder but to the stale batch
generated in the cycle at time 7: determination time `5` (not `none`) and
two samples (not `[]`). -/
theorem C4_inactive_channel_stale_snapshot :
    (List.lookup "a" (DefaultWaveformSource.currentSnapshot
        (DefaultWaveformSource.updatePhase1 9 stC4.ws.waveform_generators stC4.mdib).gens)).map
      (fun ob => ob.map (fun b => (b.determination_time, b.samples))) =
      some (some (some 5, [1, 1])) := by
  have h1 : sC4a.ws = ⟨[("a", gC4a)], []⟩ := by
    simp [sC4a, applyOp, DefaultWaveformSource.register_waveform_generator, initState,
      DefaultWaveformSource.init, SampleArrayGenerator.init, mdibC4, gC4a]
  have h2 : sC4b.ws = ⟨[("a", gC4b)], []⟩ := by
    show (DefaultWaveformSource.update_all_realtime_samples sC4a.ws sC4a.mdib 5).1 = _
    rw [h1, update_ws_single]
    norm_num [gC4a, gC4b, bC4b, SampleArrayGenerator.is_active,
      SampleArrayGenerator.get_next_sample_array, RtSampleArray.init, pyOrFloat, pyTrunc]
  have h3 : sC4c.ws = ⟨[("a", gC4c)], []⟩ := by
    show (DefaultWaveformSource.update_all_realtime_samples sC4b.ws sC4b.mdib 7).1 = _
    rw [h2, update_ws_single]
    norm_num [gC4b, gC4c, bC4b, bC4c, SampleArrayGenerator.is_active,
      SampleArrayGenerator.get_next_sample_array, RtSampleArray.init, pyOrFloat, pyTrunc,
      List.range_succ, show Int.toNat 2 = 2 from rfl,
      show List.replicate 2 (1 : ℚ) = [1, 1] from rfl]
  have h4 : stC4.ws = ⟨[("a", gC4d)], []⟩ := by
    show (DefaultWaveformSource.set_activation_state sC4c.ws sC4c.mdib "a"
      ComponentActivation.off 8).1 = _
    rw [h3]
    simp [DefaultWaveformSource.set_activation_state,
      SampleArrayGenerator.set_activation_state, gC4c, gC4d, List.lookup]
  have hnd : (stC4.ws.waveform_generators.map Prod.fst).Nodup := by
    rw [h4]; simp
  have hg : List.lookup "a" stC4.ws.waveform_generators = some gC4d := by
    rw [h4]; simp [List.lookup]
  rw [snapshot_lookup_eq 9 stC4.ws.waveform_generators stC4.mdib "a" gC4d hnd hg]
  simp [gC4d, SampleArrayGenerator.is_active, bC4c]

theorem eventsOk_append {a b : List Event} (ha : eventsOk a) (hb : eventsOk b) :
    eventsOk (a ++ b) := by
  intro h pd pb hm
  rcases List.mem_append.mp hm with hm | hm
  · exact ha h pd pb hm
  · exact hb h pd pb hm

/-- The produced batch always carries the generator's sample period. -/
theorem get_next_arr_period (g : SampleArrayGenerator) (now : ℚ) :
    (g.get_next_sample_array now).1.sample_period = g.gen_sample_period := by
  by_cases h : g.activation_state = ComponentActivation.on <;>
    simp [SampleArrayGenerator.get_next_sample_array, h, RtSampleArray.init]

/-- Stepping a generator never changes its sample period. -/
theorem get_next_gen_period (g : SampleArrayGenerator) (now : ℚ) :
    (g.get_next_sample_array now).2.gen_sample_period = g.gen_sample_period := by
  by_cases h : g.activation_state = ComponentActivation.on <;>
    simp [SampleArrayGenerator.get_next_sample_array, h, RtSampleArray.init]

/-- The per-channel update step does not touch descriptors. -/
theorem updateChannel_descr (mdib : Mdib) (h : String) (g : SampleArrayGenerator) (now : ℚ) :
    (DefaultWaveformSource.updateChannel mdib h g now).2.1.descriptorPeriod =
      mdib.descriptorPeriod := by
  by_cases hact : g.is_active = true <;> simp [DefaultWaveformSource.updateChannel, hact]

/-- The per-channel update step does not change the generator's period. -/
theorem updateChannel_period (mdib : Mdib) (h : String) (g : SampleArrayGenerator) (now : ℚ) :
    (DefaultWaveformSource.updateChannel mdib h g now).1.gen_sample_period =
      g.gen_sample_period := by
  by_cases hact : g.is_active = true <;>
    simp [DefaultWaveformSource.updateChannel, hact, get_next_gen_period]

/-- The per-channel update step only logs conforming value writes when the
channel's descriptor period matches its generator's period. -/
theorem updateChannel_events (mdib : Mdib) (h : String) (g : SampleArrayGenerator) (now : ℚ)
    (hsync : mdib.descriptorPeriod h = g.gen_sample_period) :
    eventsOk (DefaultWaveformSource.updateChannel mdib h g now).2.2 := by
  by_cases hact : g.is_active = true
  · intro h' pd pb hm
    simp [DefaultWaveformSource.updateChannel, hact, get_next_arr_period] at hm
    rw [hm.2.1, hm.2.2]
    exact hsync
  · intro h' pd pb hm
    simp [DefaultWaveformSource.updateChannel, hact] at hm

/-- The generation phase does not touch descriptors. -/
theorem updatePhase1_descr (now : ℚ) :
    ∀ (entries : List (String × SampleArrayGenerator)) (mdib : Mdib),
      (DefaultWaveformSource.updatePhase1 now entries mdib).mdib.descriptorPeriod =
        mdib.descriptorPeriod := by
  intro entries
  induction entries with
  | nil => intro mdib; rfl
  | cons a t ih =>
    intro mdib
    obtain ⟨h, g⟩ := a
    simp [DefaultWaveformSource.updatePhase1, ih, updateChannel_descr]

/-- The generation phase preserves every generator's handle and period. -/
theorem updatePhase1_periods (now : ℚ) :
    ∀ (entries : List (String × SampleArrayGenerator)) (mdib : Mdib),
      ((DefaultWaveformSource.updatePhase1 now entries mdib).gens).map
          (fun p => (p.1, p.2.gen_sample_period)) =
        entries.map (fun p => (p.1, p.2.gen_sample_period)) := by
  intro entries
  induction entries with
  | nil => intro mdib; rfl
  | cons a t ih =>
    intro mdib
    obtain ⟨h, g⟩ := a
    simp [DefaultWaveformSource.updatePhase1, ih, updateChannel_period]

/-- Under the sync invariant, every value write logged by the generation
phase conforms to the descriptor's declared period. -/
theorem updatePhase1_events (now : ℚ) :
    ∀ (entries : List (String × SampleArrayGenerator)) (mdib : Mdib),
      (∀ p ∈ entries, mdib.descriptorPeriod p.1 = p.2.gen_sample_period) →
      eventsOk (DefaultWaveformSource.updatePhase1 now entries mdib).events := by
  intro entries
  induction entries with
  | nil => intro mdib _ h pd pb hm; simp [DefaultWaveformSource.updatePhase1] at hm
  | cons a t ih =>
    intro mdib hsync
    obtain ⟨h, g⟩ := a
    simp only [DefaultWaveformSource.updatePhase1]
    apply eventsOk_append
    · exact updateChannel_events mdib h g now (hsync (h, g) (by simp))
    · apply ih
      intro p hp
      rw [updateChannel_descr]
      exact hsync p (by simp [hp])

/-- Transfer of the sync invariant along preserved handle-period
projections. -/
theorem synced_of_periods_eq {l l' : List (String × SampleArrayGenerator)}
    {f f' : String → ℚ}
    (hl : l'.map (fun p => (p.1, p.2.gen_sample_period)) =
          l.map (fun p => (p.1, p.2.gen_sample_period)))
    (hf : f' = f)
    (hinv : ∀ p ∈ l, f p.1 = p.2.gen_sample_period) :
    ∀ p ∈ l', f' p.1 = p.2.gen_sample_period := by
  intro p hp
  have hm : (p.1, p.2.gen_sample_period) ∈
      l.map (fun p => (p.1, p.2.gen_sample_period)) := by
    rw [← hl]
    exact List.mem_map.mpr ⟨p, hp, rfl⟩
  rcases List.mem_map.mp hm with ⟨q, hq, hqe⟩
  simp only [Prod.mk.injEq] at hqe
  obtain ⟨h1, h2⟩ := hqe
  rw [hf, ← h1, ← h2]
  exact hinv q hq

/-- One update cycle preserves the period-sync invariant and logs only
conforming value writes. -/
theorem update_all_inv (ws : DefaultWaveformSource) (mdib : Mdib) (now : ℚ)
    (hinv : ∀ p ∈ ws.waveform_generators, mdib.descriptorPeriod p.1 = p.2.gen_sample_period) :
    (∀ p ∈ (DefaultWaveformSource.update_all_realtime_samples ws mdib now).1.waveform_generators,
      (DefaultWaveformSource.update_all_realtime_samples ws mdib now).2.1.descriptorPeriod p.1 =
        p.2.gen_sample_period) ∧
    eventsOk (DefaultWaveformSource.update_all_realtime_samples ws mdib now).2.2 := by
  have hgens : (DefaultWaveformSource.update_all_realtime_samples
        ws mdib now).1.waveform_generators.map (fun p => (p.1, p.2.gen_sample_period)) =
      ws.waveform_generators.map (fun p => (p.1, p.2.gen_sample_period)) := by
    simp only [DefaultWaveformSource.update_all_realtime_samples, List.map_map]
    rw [show ((fun p : String × SampleArrayGenerator => (p.1, p.2.gen_sample_period)) ∘
        (fun p : String × SampleArrayGenerator =>
          (p.1, { p.2 with
                    current_rt_sample_array :=
                      (List.lookup p.1 (DefaultWaveformSource.addAllAnnotations ws.annotators
                        (DefaultWaveformSource.currentSnapshot
                          (DefaultWaveformSource.updatePhase1 now
                            ws.waveform_generators mdib).gens)).1).getD
                        p.2.current_rt_sample_array }))) =
      (fun p : String × SampleArrayGenerator => (p.1, p.2.gen_sample_period)) from rfl]
    exact updatePhase1_periods now ws.waveform_generators mdib
  have hdescr : (DefaultWaveformSource.update_all_realtime_samples
        ws mdib now).2.1.descriptorPeriod = mdib.descriptorPeriod := by
    simp only [DefaultWaveformSource.update_all_realtime_samples]
    exact updatePhase1_descr now ws.waveform_generators mdib
  refine ⟨synced_of_periods_eq hgens hdescr hinv, ?_⟩
  simp only [DefaultWaveformSource.update_all_realtime_samples]
  exact updatePhase1_events now ws.waveform_generators mdib hinv

/-- Registration syncs the descriptor period before any value write and
preserves the invariant; it logs only descriptor writes. -/
theorem register_inv (ws : DefaultWaveformSource) (mdib : Mdib) (handle : String)
    (sp : ℚ) (vals : ℕ → ℚ)
    (hinv : ∀ p ∈ ws.waveform_generators, mdib.descriptorPeriod p.1 = p.2.gen_sample_period) :
    (∀ p ∈ (DefaultWaveformSource.register_waveform_generator
        ws mdib handle sp vals).1.waveform_generators,
      (DefaultWaveformSource.register_waveform_generator
        ws mdib handle sp vals).2.1.descriptorPeriod p.1 = p.2.gen_sample_period) ∧
    eventsOk (DefaultWaveformSource.register_waveform_generator ws mdib handle sp vals).2.2 := by
  have hd : (DefaultWaveformSource.register_waveform_generator
      ws mdib handle sp vals).2.1.descriptorPeriod handle = sp := by
    by_cases hc : mdib.descriptorPeriod handle ≠ sp
    · simp [DefaultWaveformSource.register_waveform_generator, hc, updFn]
    · simp only [DefaultWaveformSource.register_waveform_generator, if_neg hc]
      exact not_not.mp hc
  have hd2 : ∀ k, k ≠ handle →
      (DefaultWaveformSource.register_waveform_generator
        ws mdib handle sp vals).2.1.descriptorPeriod k = mdib.descriptorPeriod k := by
    intro k hk
    by_cases hc : mdib.descriptorPeriod handle ≠ sp
    · simp [DefaultWaveformSource.register_waveform_generator, hc, updFn, hk]
    · simp [DefaultWaveformSource.register_waveform_generator, hc]
  constructor
  · intro p hp
    by_cases hpres : ws.waveform_generators.any (fun q => q.1 = handle) = true
    · simp only [DefaultWaveformSource.register_waveform_generator, hpres, if_true] at hp
      rcases List.mem_map.mp hp with ⟨q, hq, hqe⟩
      by_cases hqh : q.1 = handle
      · rw [if_pos hqh] at hqe
        rw [← hqe]
        simpa [hqh, SampleArrayGenerator.set_waveform_generator] using hd
      · rw [if_neg hqh] at hqe
        rw [← hqe]
        rw [hd2 q.1 hqh]
        exact hinv q hq
    · simp only [DefaultWaveformSource.register_waveform_generator,
        Bool.not_eq_true, hpres, if_false] at hp
      rcases List.mem_append.mp hp with hq | hq
      · have hne : ¬(p.1 = handle) := by
          have := List.any_eq_false.mp (Bool.not_eq_true _ ▸ hpres) p hq
          simpa using this
        rw [hd2 p.1 hne]
        exact hinv p hq
      · have hpe : p = (handle, SampleArrayGenerator.init handle sp vals) := by
          simpa using hq
        rw [hpe]
        simpa [SampleArrayGenerator.init] using hd
  · intro h pd pb hm
    by_cases hc : mdib.descriptorPeriod handle ≠ sp <;>
      simp [DefaultWaveformSource.register_waveform_generator, hc] at hm

/-- Changing a channel's activation state preserves the period-sync
invariant. -/
theorem setAct_inv (ws : DefaultWaveformSource) (mdib : Mdib) (handle : String)
    (s : ComponentActivation) (now : ℚ)
    (hinv : ∀ p ∈ ws.waveform_generators, mdib.descriptorPeriod p.1 = p.2.gen_sample_period) :
    ∀ p ∈ (DefaultWaveformSource.set_activation_state
        ws mdib handle s now).1.waveform_generators,
      (DefaultWaveformSource.set_activation_state
        ws mdib handle s now).2.descriptorPeriod p.1 = p.2.gen_sample_period := by
  cases hlk : List.lookup handle ws.waveform_generators with
  | none =>
    simp only [DefaultWaveformSource.set_activation_state, hlk]
    exact hinv
  | some g0 =>
    simp only [DefaultWaveformSource.set_activation_state, hlk]
    intro p hp
    rcases List.mem_map.mp hp with ⟨q, hq, hqe⟩
    have hk : p.1 = q.1 ∧ p.2.gen_sample_period = q.2.gen_sample_period := by
      by_cases hqh : q.1 = handle <;>
        simp [← hqe, hqh, SampleArrayGenerator.set_activation_state]
    rw [hk.1, hk.2]
    exact hinv q hq

/-- Every single operation preserves the invariant and the conformance of
the event log. -/
theorem applyOp_inv (st : SysState) (op : Op)
    (hinv : periodsSynced st) (hev : eventsOk st.events) :
    periodsSynced (applyOp st op) ∧ eventsOk (applyOp st op).events := by
  cases op with
  | registerGen h sp vals =>
    have hr := register_inv st.ws st.mdib h sp vals hinv
    exact ⟨hr.1, eventsOk_append hev hr.2⟩
  | updateAll now =>
    have hr := update_all_inv st.ws st.mdib now hinv
    exact ⟨hr.1, eventsOk_append hev hr.2⟩
  | setAct h s now =>
    exact ⟨setAct_inv st.ws st.mdib h s now hinv, hev⟩
  | registerAnnot an =>
    exact ⟨hinv, hev⟩

/-- Whole-run preservation of the invariant and event conformance. -/
theorem runOps_inv : ∀ (ops : List Op) (st : SysState),
    periodsSynced st → eventsOk st.events →
    periodsSynced (runOps st ops) ∧ eventsOk (runOps st ops).events := by
  intro ops
  induction ops with
  | nil => intro st hinv hev; exact ⟨hinv, hev⟩
  | cons op ops ih =>
    intro st hinv hev
    have h1 := applyOp_inv st op hinv hev
    exact ih (applyOp st op) h1.1 h1.2

/-- CLAIM C7 — In every run of externally driven operations starting from a
source with no registered generators, every value write recorded against
the host mdib happens with the channel descriptor's declared sample period
already equal to the sample period of the batch being written:
`register_waveform_generator` performs the descriptor-period transaction
whenever the declared period differs from the generator's, before any
update cycle can write values for that channel. -/
theorem C7_descriptor_period_synced_before_value_write (mdib0 : Mdib) (ops : List Op)
    (h : String) (pd pb : ℚ)
    (hmem : Event.valueWrite h pd pb ∈ (runOps (initState mdib0) ops).events) :
    pd = pb := by
  have hrun := runOps_inv ops (initState mdib0)
    (by intro p hp; simp [initState, DefaultWaveformSource.init] at hp)
    (by intro h pd pb hm; simp [initState] at hm)
  exact hrun.2 h pd pb hmem

/-- The event log of one update cycle of a single-channel source with no
annotators. -/
theorem update_events_single (g : SampleArrayGenerator) (mdib : Mdib) (now : ℚ) (h : String) :
    (DefaultWaveformSource.update_all_realtime_samples ⟨[(h, g)], []⟩ mdib now).2.2 =
      if g.is_active then
        [Event.valueWrite h (mdib.descriptorPeriod h)
          (g.get_next_sample_array now).1.sample_period]
      else [] := by
  cases hact : g.is_active <;>
    simp [DefaultWaveformSource.update_all_realtime_samples,
      DefaultWaveformSource.updatePhase1, DefaultWaveformSource.updateChannel, hact]

/-- Witness for C7: registering a generator whose period 2 differs from the
declared period 1 logs the descriptor write first, and the value write of
the following update cycle carries matching periods. -/
theorem C7_descriptor_period_synced_before_value_write_witness :
    Event.valueWrite "a" 2 2 ∈ (runOps (initState mdibC4)
      [Op.registerGen "a" 2 (fun _ => 0), Op.updateAll 5]).events ∧ (2 : ℚ) = 2 := by
  have hs1 : applyOp (initState mdibC4) (Op.registerGen "a" 2 (fun _ => 0)) =
      ⟨⟨[("a", gC7)], []⟩, ⟨updFn mdibC4.descriptorPeriod "a" 2, mdibC4.states⟩,
       [Event.descriptorWrite "a" 2]⟩ := by
    norm_num [applyOp, DefaultWaveformSource.register_waveform_generator, initState,
      DefaultWaveformSource.init, SampleArrayGenerator.init, mdibC4, gC7]
  have hev : (runOps (initState mdibC4)
      [Op.registerGen "a" 2 (fun _ => 0), Op.updateAll 5]).events =
      [Event.descriptorWrite "a" 2, Event.valueWrite "a" 2 2] := by
    show (applyOp (applyOp (initState mdibC4) (Op.registerGen "a" 2 (fun _ => 0)))
      (Op.updateAll 5)).events = _
    rw [hs1]
    simp [applyOp, update_events_single, gC7, SampleArrayGenerator.is_active,
      get_next_arr_period, updFn]
  refine ⟨by rw [hev]; simp,
    C7_descriptor_period_synced_before_value_write mdibC4
      [Op.registerGen "a" 2 (fun _ => 0), Op.updateAll 5] "a" 2 2 (by rw [hev]; simp)⟩
